import Mathlib

/-!
Shallow embedding of the solana-launchpad-parser pipeline:
the bounded transaction queue (src/geyser/queue.rs), the Pumpfun binary
decoder (src/parser/pumpfun.rs), the parser dispatch engine
(src/parser/manager.rs), the ingestion queueing predicate
(src/geyser/client.rs) and the JSON schema of TokenLaunch
(src/parser/launchpad_parser.rs).

Rust machine integers are modelled as Nat (u8 bytes as Nat values,
u32/u64/usize as Nat); chrono DateTime<Utc> is modelled as an Int
(nanoseconds since the epoch); Rust String is Lean String; Vec and
VecDeque are Lean lists.
-/

/-- Model of chrono DateTime<Utc>: an integer timestamp. -/
abbrev DateTimeUtc := Int

/-- src/geyser/queue.rs TransactionInstruction: program id, account
indices (u8) and raw instruction data bytes. -/
structure TransactionInstruction where
  program_id : String
  accounts : List Nat
  data : List Nat
deriving DecidableEq

/-- src/geyser/queue.rs QueuedTransaction. -/
structure QueuedTransaction where
  signature : String
  slot : Nat
  received_time : DateTimeUtc
  accounts : List String
  instructions : List TransactionInstruction
deriving DecidableEq

/-! ## UTF-8 (model of Rust String::from_utf8)

`utf8Decode?` decodes a byte sequence to its code points, returning
none exactly on invalid UTF-8 (continuation errors, overlong forms,
surrogates, out-of-range), following the standard UTF-8 table. -/

/-- A UTF-8 continuation byte: 0x80..0xBF. -/
def utf8Cont (c : Nat) : Prop := 0x80 ≤ c ∧ c ≤ 0xBF

instance (c : Nat) : Decidable (utf8Cont c) := by
  unfold utf8Cont; infer_instance

/-- Decode a UTF-8 byte list to code points; none on invalid input. -/
def utf8Decode? : List Nat → Option (List Char)
  | [] => some []
  | b :: rest =>
    if b ≤ 0x7F then
      (utf8Decode? rest).map (fun cs => Char.ofNat b :: cs)
    else if 0xC2 ≤ b ∧ b ≤ 0xDF then
      match rest with
      | c1 :: rest2 =>
        if utf8Cont c1 then
          (utf8Decode? rest2).map (fun cs =>
            Char.ofNat ((b - 0xC0) * 0x40 + (c1 - 0x80)) :: cs)
        else none
      | [] => none
    else if b = 0xE0 then
      match rest with
      | c1 :: c2 :: rest2 =>
        if (0xA0 ≤ c1 ∧ c1 ≤ 0xBF) ∧ utf8Cont c2 then
          (utf8Decode? rest2).map (fun cs =>
            Char.ofNat (((b - 0xE0) * 0x40 + (c1 - 0x80)) * 0x40 + (c2 - 0x80)) :: cs)
        else none
      | _ => none
    else if (0xE1 ≤ b ∧ b ≤ 0xEC) ∨ (0xEE ≤ b ∧ b ≤ 0xEF) then
      match rest with
      | c1 :: c2 :: rest2 =>
        if utf8Cont c1 ∧ utf8Cont c2 then
          (utf8Decode? rest2).map (fun cs =>
            Char.ofNat (((b - 0xE0) * 0x40 + (c1 - 0x80)) * 0x40 + (c2 - 0x80)) :: cs)
        else none
      | _ => none
    else if b = 0xED then
      match rest with
      | c1 :: c2 :: rest2 =>
        if (0x80 ≤ c1 ∧ c1 ≤ 0x9F) ∧ utf8Cont c2 then
          (utf8Decode? rest2).map (fun cs =>
            Char.ofNat (((b - 0xE0) * 0x40 + (c1 - 0x80)) * 0x40 + (c2 - 0x80)) :: cs)
        else none
      | _ => none
    else if b = 0xF0 then
      match rest with
      | c1 :: c2 :: c3 :: rest2 =>
        if (0x90 ≤ c1 ∧ c1 ≤ 0xBF) ∧ utf8Cont c2 ∧ utf8Cont c3 then
          (utf8Decode? rest2).map (fun cs =>
            Char.ofNat ((((b - 0xF0) * 0x40 + (c1 - 0x80)) * 0x40 + (c2 - 0x80)) * 0x40 + (c3 - 0x80)) :: cs)
        else none
      | _ => none
    else if 0xF1 ≤ b ∧ b ≤ 0xF3 then
      match rest with
      | c1 :: c2 :: c3 :: rest2 =>
        if utf8Cont c1 ∧ utf8Cont c2 ∧ utf8Cont c3 then
          (utf8Decode? rest2).map (fun cs =>
            Char.ofNat ((((b - 0xF0) * 0x40 + (c1 - 0x80)) * 0x40 + (c2 - 0x80)) * 0x40 + (c3 - 0x80)) :: cs)
        else none
      | _ => none
    else if b = 0xF4 then
      match rest with
      | c1 :: c2 :: c3 :: rest2 =>
        if (0x80 ≤ c1 ∧ c1 ≤ 0x8F) ∧ utf8Cont c2 ∧ utf8Cont c3 then
          (utf8Decode? rest2).map (fun cs =>
            Char.ofNat ((((b - 0xF0) * 0x40 + (c1 - 0x80)) * 0x40 + (c2 - 0x80)) * 0x40 + (c3 - 0x80)) :: cs)
        else none
      | _ => none
    else none

/-- Model of Rust String::from_utf8 over a byte list. -/
def string_from_utf8 (bytes : List Nat) : Option String :=
  (utf8Decode? bytes).map (fun cs => String.mk cs)

/-! ## Bounded transaction queue (src/geyser/queue.rs)

The queue is a VecDeque<QueuedTransaction> modelled as a list with its
front at the head.  `push` first runs the eviction loop
`while queue.len() >= self.max_size { queue.pop_front() }`; the loop is
embedded with explicit fuel (`evictFuel`), where a `none` result means
the loop did not finish within the given fuel.  Note the Rust loop keeps
iterating when `pop_front` returns None (empty deque), which the
`List.tail` of `[]` (= `[]`) reproduces. -/

namespace TransactionQueue

/-- The eviction loop of TransactionQueue::push, with fuel; `none`
means the loop has not terminated within `fuel` iterations. -/
def evictFuel (max_size : Nat) : Nat → List QueuedTransaction → Option (List QueuedTransaction)
  | 0, _ => none
  | fuel + 1, q =>
    if max_size ≤ q.length then evictFuel max_size fuel q.tail
    else some q

/-- TransactionQueue::push: evict oldest entries while the length is at
least max_size, then push_back.  Fuel `q.length + 1` always suffices
when `max_size ≥ 1` (proved below); the `getD` default is never used in
that case. -/
def push (max_size : Nat) (q : List QueuedTransaction) (t : QueuedTransaction) : List QueuedTransaction :=
  (evictFuel max_size (q.length + 1) q).getD q ++ [t]

/-- TransactionQueue::pop: pop_front. -/
def pop (q : List QueuedTransaction) : Option QueuedTransaction × List QueuedTransaction :=
  match q with
  | [] => (none, [])
  | t :: rest => (some t, rest)

/-- TransactionQueue::pop_batch: pop_front up to max_count times,
collecting the results; returns (batch, remaining queue). -/
def pop_batch (max_count : Nat) (q : List QueuedTransaction) : List QueuedTransaction × List QueuedTransaction :=
  match max_count, q with
  | 0, q => ([], q)
  | _ + 1, [] => ([], [])
  | n + 1, t :: rest =>
    let r := pop_batch n rest
    (t :: r.1, r.2)

/-- Repeated pop_batch: `k` successive calls of size `n`, returning the
concatenation of the batches and the final remaining queue (this is how
ParserManager::start_processing consumes the queue). -/
def pop_batch_iter (k n : Nat) (q : List QueuedTransaction) : List QueuedTransaction × List QueuedTransaction :=
  match k with
  | 0 => ([], q)
  | k + 1 =>
    let b := pop_batch n q
    let r := pop_batch_iter k n b.2
    (b.1 ++ r.1, r.2)

end TransactionQueue

/-! ## Parser data model (src/parser/launchpad_parser.rs) -/

/-- launchpad_parser.rs LaunchpadType. -/
inductive LaunchpadType where
  | pumpfun
  | meteora
deriving DecidableEq

/-- launchpad_parser.rs LaunchMetadata (all fields Option). -/
structure LaunchMetadata where
  name : Option String
  symbol : Option String
  uri : Option String
  initial_supply : Option Nat
  mint_authority : Option String
deriving DecidableEq

/-- launchpad_parser.rs TokenLaunch. -/
structure TokenLaunch where
  launchpad : LaunchpadType
  token_address : String
  creator : Option String
  signature : String
  slot : Nat
  timestamp : DateTimeUtc
  metadata : LaunchMetadata
deriving DecidableEq

/-- launchpad_parser.rs ParseResult. -/
inductive ParseResult where
  | tokenLaunch (launch : TokenLaunch)
  | trade (launchpad : LaunchpadType) (token_address : String) (trader : String)
      (amount : Nat) (signature : String) (timestamp : DateTimeUtc)
  | other (launchpad : LaunchpadType) (event_type : String) (signature : String)
  | notRelevant
deriving DecidableEq

/-! ## Pumpfun decoder (src/parser/pumpfun.rs) -/

namespace PumpfunParser

/-- The program id set in PumpfunParser::new. -/
def program_id : String := "6EF8rrecthR5Dkzon8Nwu78hRvfCKubJ14M5uBEwF6P"

/-- The create-instruction discriminator checked in parse_transaction. -/
def create_discriminator : List Nat := [24, 30, 200, 40, 5, 28, 7, 119]

/-- PumpfunParser::extract_string_from_data: reads a 4-byte
little-endian length at `start`, then that many bytes of UTF-8;
returns the string and the cursor just past it, or none when the
length prefix or the declared bytes run past the end of `data`, or the
bytes are not valid UTF-8. -/
def extract_string_from_data (data : List Nat) (start : Nat) : Option (String × Nat) :=
  if data.length < start + 4 then none
  else
    let len := data.getD start 0 + data.getD (start + 1) 0 * 0x100 +
      data.getD (start + 2) 0 * 0x10000 + data.getD (start + 3) 0 * 0x1000000
    let str_start := start + 4
    let str_end := str_start + len
    if data.length < str_end then none
    else
      match string_from_utf8 ((data.drop str_start).take len) with
      | some string => some (string, str_end)
      | none => none

/-- The all-None LaunchMetadata value the decoder falls back to. -/
def emptyMetadata : LaunchMetadata :=
  { name := none, symbol := none, uri := none,
    initial_supply := none, mint_authority := none }

/-- PumpfunParser::extract_metadata_from_instruction: skip the 8-byte
discriminator, try to read name then symbol; on any failure return the
all-None metadata. -/
def extract_metadata_from_instruction (data : List Nat) : LaunchMetadata :=
  if data.length < 8 then emptyMetadata
  else
    match extract_string_from_data data 8 with
    | some (name, cursor) =>
      match extract_string_from_data data cursor with
      | some (symbol, _) =>
        { name := some name, symbol := some symbol, uri := none,
          initial_supply := none, mint_authority := none }
      | none => emptyMetadata
    | none => emptyMetadata

/-- PumpfunParser::extract_token_launch: resolve instruction account
index 0 through the transaction account list to get the mint; both
lookups use Vec::get, so an out-of-range index yields Ok(None). -/
def extract_token_launch (transaction : QueuedTransaction)
    (instruction : TransactionInstruction) :
    Except String (Option TokenLaunch) :=
  match instruction.accounts[0]? with
  | some mint_idx =>
    match transaction.accounts[mint_idx]? with
    | some mint_address =>
      .ok (some
        { launchpad := .pumpfun
          token_address := mint_address
          creator := transaction.accounts[0]?
          signature := transaction.signature
          slot := transaction.slot
          timestamp := transaction.received_time
          metadata := extract_metadata_from_instruction instruction.data })
    | none => .ok none
  | none => .ok none

/-- The instruction loop of PumpfunParser::parse_transaction. -/
def parse_go (transaction : QueuedTransaction) :
    List TransactionInstruction → Except String (List ParseResult)
  | [] => .ok [.notRelevant]
  | instr :: rest =>
    if instr.program_id = program_id ∧ 8 ≤ instr.data.length ∧
        instr.data.take 8 = create_discriminator then
      match extract_token_launch transaction instr with
      | .ok (some token_launch) => .ok [.tokenLaunch token_launch]
      | .ok none => parse_go transaction rest
      | .error e => .error e
    else parse_go transaction rest

/-- PumpfunParser::parse_transaction: scan the instructions for a
create instruction of the Pumpfun program and extract it; otherwise
return [NotRelevant]. -/
def parse_transaction (transaction : QueuedTransaction) :
    Except String (List ParseResult) :=
  parse_go transaction transaction.instructions

/-- The account lookups of extract_token_launch fail: either
instruction account index 0 is absent, or the resolved index is out of
range in the transaction account list. -/
def lookupFails (transaction : QueuedTransaction)
    (instruction : TransactionInstruction) : Prop :=
  instruction.accounts[0]? = none ∨
    ∃ i, instruction.accounts[0]? = some i ∧ transaction.accounts[i]? = none

instance (transaction : QueuedTransaction) (instruction : TransactionInstruction) :
    Decidable (lookupFails transaction instruction) := by
  unfold lookupFails
  rcases h : instruction.accounts[0]? with _ | i
  · exact isTrue (Or.inl rfl)
  · rcases h2 : transaction.accounts[i]? with _ | a
    · exact isTrue (Or.inr ⟨i, rfl, h2⟩)
    · refine isFalse ?f
      rintro (hc | ⟨j, hj, hj2⟩)
      · exact Option.noConfusion hc
      · rw [Option.some_inj.mp hj] at h2
        rw [h2] at hj2
        exact Option.noConfusion hj2

end PumpfunParser

/-! ## Parser dispatch engine (src/parser/manager.rs)

A registered parser is modelled by its program-id list and its
parse_transaction function (the LaunchpadParser trait object).
ParserManager keeps a Vec of parsers and a HashMap from program id to
parser index; HashMap::insert is modelled by prepending to an
association list read through List.lookup (the first, i.e. most
recent, binding wins, as with overwriting inserts). -/

/-- A registered LaunchpadParser trait object: its program ids and its
parse_transaction implementation. -/
structure ParserModel where
  programIds : List String
  parse : QueuedTransaction → Except String (List ParseResult)

namespace ParserManager

/-- The program_id_to_parser map built in ParserManager::new: for each
parser (in registration order) insert every program id mapped to the
parser's index. -/
def programIdMap (parsers : List ParserModel) : List (String × Nat) :=
  (parsers.enum.foldl
    (fun m ip => ip.2.programIds.foldl (fun m' pid => (pid, ip.1) :: m') m) [])

/-- The relevant-parser scan of ParserManager::process_transaction:
collect, in first-seen order and without duplicates, the indices of
parsers whose program id occurs in some instruction. -/
def relevantParsers (parsers : List ParserModel) (transaction : QueuedTransaction) : List Nat :=
  transaction.instructions.foldl
    (fun acc instruction =>
      match List.lookup instruction.program_id (programIdMap parsers) with
      | some parser_index =>
        if parser_index ∈ acc then acc else acc ++ [parser_index]
      | none => acc)
    []

/-- Keep a ParseResult only when it is a TokenLaunch (the match arms of
process_transaction: Trade, Other and NotRelevant are skipped). -/
def launchOf : ParseResult → Option TokenLaunch
  | .tokenLaunch launch => some launch
  | _ => none

/-- Modelled from the spec: handle_token_launch forwards a detected
launch to the Messaging Gateway.  The manager.rs under src/ is an
older revision whose handle_token_launch only logs (main.rs already
constructs the manager with a RabbitMQ producer, `ParserManager::new(
Some(producer))`, which this revision does not accept); the publishing
body is missing from src/, so forwarding is modelled as collecting the
launch into the list of published events, per the spec's "Only
TokenLaunch results are forwarded to the Messaging Gateway".
process_transaction returns the list of launches published for one
transaction: for each relevant parser, on Ok(results) every
TokenLaunch result is published and the other variants are skipped; a
parser Err is logged and publishes nothing. -/
def process_transaction (parsers : List ParserModel)
    (transaction : QueuedTransaction) : List TokenLaunch :=
  (relevantParsers parsers transaction).foldl
    (fun published parser_index =>
      match parsers[parser_index]? with
      | some parser =>
        match parser.parse transaction with
        | .ok results => published ++ results.filterMap launchOf
        | .error _ => published
      | none => published)
    []

end ParserManager

/-! ## Ingestion client configuration and queueing (src/config/grpc.rs,
src/geyser/client.rs)

HashMap<String, _> collections of the Config are modelled as
association lists. -/

/-- grpc.rs TransactionFilter. -/
structure TransactionFilter where
  account_include : Option (List String)
  account_exclude : Option (List String)
  account_required : Option (List String)
  vote : Option Bool
  failed : Option Bool
  signature : Option String
deriving DecidableEq

/-- grpc.rs Memcmp. -/
structure Memcmp where
  offset : Nat
  data : String
deriving DecidableEq

/-- grpc.rs Lamports. -/
structure Lamports where
  cmp : String
  value : Nat
deriving DecidableEq

/-- grpc.rs AccountSubFilter. -/
structure AccountSubFilter where
  memcmp : Option Memcmp
  datasize : Option Nat
  token_account_state : Option Bool
  lamports : Option Lamports
deriving DecidableEq

/-- grpc.rs AccountFilter. -/
structure AccountFilter where
  account : Option (List String)
  owner : Option (List String)
  filters : Option (List AccountSubFilter)
deriving DecidableEq

/-- grpc.rs SlotFilter. -/
structure SlotFilter where
  filter_by_commitment : Option Bool
  interslot_updates : Option Bool
deriving DecidableEq

/-- grpc.rs BlockFilter. -/
structure BlockFilter where
  account_include : Option (List String)
  include_transactions : Option Bool
  include_accounts : Option Bool
  include_entries : Option Bool
deriving DecidableEq

/-- grpc.rs BlockMetaFilter (no fields). -/
structure BlockMetaFilter where
deriving DecidableEq

/-- grpc.rs EntryFilter (no fields). -/
structure EntryFilter where
deriving DecidableEq

/-- grpc.rs Config. -/
structure Config where
  commitment : Option String
  transactions : List (String × TransactionFilter)
  accounts : List (String × AccountFilter)
  slots : List (String × SlotFilter)
  blocks : List (String × BlockFilter)
  blocks_meta : List (String × BlockMetaFilter)
  entry : List (String × EntryFilter)
deriving DecidableEq

namespace GeyserClient

/-- The filter loop of GeyserClient::should_queue_transaction: return
true (early) as soon as one filter has an account_include entry
contained in the transaction accounts, or an account_required list
entirely contained in them. -/
def should_queue_go (transaction_accounts : List String) :
    List (String × TransactionFilter) → Bool
  | [] => false
  | (_, tx_filter) :: rest =>
    (match tx_filter.account_include with
     | some account_include =>
       account_include.any (fun target => transaction_accounts.contains target)
     | none => false) ||
    (match tx_filter.account_required with
     | some account_required =>
       account_required.all (fun required => transaction_accounts.contains required)
     | none => false) ||
    should_queue_go transaction_accounts rest

/-- GeyserClient::should_queue_transaction: scan the configured
transaction filters. -/
def should_queue_transaction (config : Config)
    (transaction_accounts : List String) : Bool :=
  should_queue_go transaction_accounts config.transactions

/-- The include/required projection of the transaction filters; the
queueing decision depends on the configuration only through it. -/
def filterProjection (config : Config) : List (Option (List String) × Option (List String)) :=
  config.transactions.map (fun nf => (nf.2.account_include, nf.2.account_required))

end GeyserClient

/-! ## JSON encoding of TokenLaunch (src/parser/launchpad_parser.rs
derives, src/rabbitmq/producer.rs publish, src/rabbitmq/consumer.rs
consume)

Modelled from the spec: the producer publishes `serde_json::to_vec`
of a TokenLaunch and the consumer reads it back with
`serde_json::from_slice`; the serde derive and serde_json are library
code not present under src/, so the derived encoding is modelled at
the level of JSON values (the byte rendering of serde_json is the
identity on this tree), following the serde rules for this schema: a
struct is an object listing its fields in declaration order, an
Option is null or the plain value, a unit enum variant is its name as
a string, u64 is a number.  chrono's DateTime<Utc> serde support
round-trips through RFC3339 text; the timestamp model (an Int) is
encoded as that number in a JSON leaf, losslessly, matching that
behaviour.  The decoder reads back exactly the shape the encoder
emits, as the consumer does for producer-published messages. -/

/-- JSON values. -/
inductive Json where
  | null
  | bool (b : Bool)
  | num (n : Int)
  | str (s : String)
  | arr (elems : List Json)
  | obj (fields : List (String × Json))

/-- serde encoding of Option<String>. -/
def optStrToJson : Option String → Json
  | none => .null
  | some s => .str s

/-- serde decoding of Option<String>. -/
def optStrFromJson : Json → Option (Option String)
  | .null => some none
  | .str s => some (some s)
  | _ => none

/-- serde encoding of Option<u64>. -/
def optU64ToJson : Option Nat → Json
  | none => .null
  | some n => .num (Int.ofNat n)

/-- serde decoding of Option<u64>. -/
def optU64FromJson : Json → Option (Option Nat)
  | .null => some none
  | .num i => if 0 ≤ i then some (some i.toNat) else none
  | _ => none

/-- serde encoding of u64. -/
def u64ToJson (n : Nat) : Json := .num (Int.ofNat n)

/-- serde decoding of u64. -/
def u64FromJson : Json → Option Nat
  | .num i => if 0 ≤ i then some i.toNat else none
  | _ => none

/-- serde encoding of the unit-variant enum LaunchpadType. -/
def launchpadTypeToJson : LaunchpadType → Json
  | .pumpfun => .str "Pumpfun"
  | .meteora => .str "Meteora"

/-- serde decoding of LaunchpadType. -/
def launchpadTypeFromJson : Json → Option LaunchpadType
  | .str "Pumpfun" => some .pumpfun
  | .str "Meteora" => some .meteora
  | _ => none

/-- Model of the chrono DateTime<Utc> serde encoding (RFC3339 text,
lossless): the Int timestamp in a JSON leaf. -/
def dateTimeToJson (t : DateTimeUtc) : Json := .num t

/-- Model of the chrono DateTime<Utc> serde decoding. -/
def dateTimeFromJson : Json → Option DateTimeUtc
  | .num i => some i
  | _ => none

/-- serde encoding of LaunchMetadata. -/
def launchMetadataToJson (m : LaunchMetadata) : Json :=
  .obj [("name", optStrToJson m.name),
        ("symbol", optStrToJson m.symbol),
        ("uri", optStrToJson m.uri),
        ("initial_supply", optU64ToJson m.initial_supply),
        ("mint_authority", optStrToJson m.mint_authority)]

/-- serde decoding of LaunchMetadata (the field layout emitted by the
encoder). -/
def launchMetadataFromJson : Json → Option LaunchMetadata
  | .obj [("name", jn), ("symbol", js), ("uri", ju),
          ("initial_supply", ji), ("mint_authority", jm)] =>
    (optStrFromJson jn).bind fun name =>
      (optStrFromJson js).bind fun symbol =>
        (optStrFromJson ju).bind fun uri =>
          (optU64FromJson ji).bind fun initial_supply =>
            (optStrFromJson jm).bind fun mint_authority =>
              some { name, symbol, uri, initial_supply, mint_authority }
  | _ => none

/-- serde encoding of TokenLaunch, as published by
RabbitMQProducer::publish_token_launch. -/
def tokenLaunchToJson (t : TokenLaunch) : Json :=
  .obj [("launchpad", launchpadTypeToJson t.launchpad),
        ("token_address", .str t.token_address),
        ("creator", optStrToJson t.creator),
        ("signature", .str t.signature),
        ("slot", u64ToJson t.slot),
        ("timestamp", dateTimeToJson t.timestamp),
        ("metadata", launchMetadataToJson t.metadata)]

/-- serde decoding of TokenLaunch, as performed by
RabbitMQConsumer::consume_messages on a received payload. -/
def tokenLaunchFromJson : Json → Option TokenLaunch
  | .obj [("launchpad", jl), ("token_address", jt), ("creator", jc),
          ("signature", jsig), ("slot", jslot), ("timestamp", jts),
          ("metadata", jm)] =>
    (launchpadTypeFromJson jl).bind fun launchpad =>
      (match jt with | .str s => some s | _ => none).bind fun token_address =>
        (optStrFromJson jc).bind fun creator =>
          (match jsig with | .str s => some s | _ => none).bind fun signature =>
            (u64FromJson jslot).bind fun slot =>
              (dateTimeFromJson jts).bind fun timestamp =>
                (launchMetadataFromJson jm).bind fun metadata =>
                  some { launchpad, token_address, creator, signature,
                         slot, timestamp, metadata }
  | _ => none

/-! ## Concrete inputs used by witnesses and counterexamples -/

/-- A sample transaction (for queue witnesses). -/
def wtx (n : Nat) : QueuedTransaction :=
  { signature := toString n, slot := n, received_time := 0,
    accounts := [], instructions := [] }

/-- C3 counterexample payload: discriminator, name "PUMP"
(length 4), then a symbol whose declared length 10 exceeds the single
remaining byte. -/
def c3data : List Nat :=
  [24, 30, 200, 40, 5, 28, 7, 119, 4, 0, 0, 0, 80, 85, 77, 80, 10, 0, 0, 0, 80]

/-- C7 payload: discriminator, name "PUMP" (length 4), symbol "PMP"
(length 3). -/
def c7data : List Nat :=
  [24, 30, 200, 40, 5, 28, 7, 119, 4, 0, 0, 0, 80, 85, 77, 80, 3, 0, 0, 0, 80, 77, 80]

/-- C7 transaction: one Pumpfun create instruction whose account
index 0 resolves into the transaction account list. -/
def c7tx : QueuedTransaction :=
  { signature := "sig7", slot := 42, received_time := 7,
    accounts := ["MintAddr"],
    instructions := [{ program_id := PumpfunParser.program_id,
                       accounts := [0], data := c7data }] }

/-- C2 witness transaction: a short-payload instruction and a
create instruction whose account list is empty (lookup failure). -/
def c2tx : QueuedTransaction :=
  { signature := "sig2", slot := 1, received_time := 0,
    accounts := ["A"],
    instructions := [{ program_id := PumpfunParser.program_id,
                       accounts := [0], data := [1, 2, 3] },
                     { program_id := PumpfunParser.program_id,
                       accounts := [], data := c7data }] }

/-- C6/C10 witness filter: include-list ["X"]. -/
def wFilterInclude : TransactionFilter :=
  { account_include := some ["X"], account_exclude := none,
    account_required := none, vote := none, failed := none, signature := none }

/-- C6 witness filter: same include/required projection as
`wFilterInclude` but different in every other field. -/
def wFilterIncludeOther : TransactionFilter :=
  { account_include := some ["X"], account_exclude := some ["Z"],
    account_required := none, vote := some true, failed := some false,
    signature := some "s" }

/-- C10 witness filter: present but empty account_required. -/
def wFilterEmptyRequired : TransactionFilter :=
  { account_include := none, account_exclude := none,
    account_required := some [], vote := none, failed := none, signature := none }

/-- C6 witness configuration. -/
def wConfigA : Config :=
  { commitment := none, transactions := [("f", wFilterInclude)],
    accounts := [], slots := [], blocks := [], blocks_meta := [], entry := [] }

/-- C6 witness configuration: same filter projection as `wConfigA`,
every other part of the configuration different. -/
def wConfigB : Config :=
  { commitment := some "Finalized",
    transactions := [("g", wFilterIncludeOther)],
    accounts := [("a", { account := some ["Q"], owner := none, filters := none })],
    slots := [("s", { filter_by_commitment := some true, interslot_updates := none })],
    blocks := [], blocks_meta := [("b", {})], entry := [("e", {})] }

/-- C10 witness configuration. -/
def wConfigC : Config :=
  { commitment := none, transactions := [("f", wFilterEmptyRequired)],
    accounts := [], slots := [], blocks := [], blocks_meta := [], entry := [] }

/-! ## Queue lemmas -/

namespace TransactionQueue

theorem evictFuel_eq_drop {max_size : Nat} (hC : 1 ≤ max_size) :
    ∀ fuel q, q.length < fuel →
      evictFuel max_size fuel q = some (q.drop (q.length + 1 - max_size)) := by
  intro fuel
  induction fuel with
  | zero => intro q h; omega
  | succ fuel ih =>
    intro q h
    rw [evictFuel]
    by_cases hle : max_size ≤ q.length
    · rw [if_pos hle]
      have hq : q.length ≠ 0 := by omega
      have htl : q.tail.length < fuel := by
        rw [List.length_tail]; omega
      rw [ih q.tail htl, ← List.drop_one, List.drop_drop, List.length_drop]
      congr 2
      omega
    · rw [if_neg hle]
      have : q.length + 1 - max_size = 0 := by omega
      rw [this, List.drop_zero]

theorem push_eq_drop {max_size : Nat} (hC : 1 ≤ max_size)
    (q : List QueuedTransaction) (t : QueuedTransaction) :
    push max_size q t = q.drop (q.length + 1 - max_size) ++ [t] := by
  rw [push, evictFuel_eq_drop hC (q.length + 1) q (by omega), Option.getD_some]

theorem push_length_le {max_size : Nat} (hC : 1 ≤ max_size)
    (q : List QueuedTransaction) (t : QueuedTransaction) :
    (push max_size q t).length ≤ max_size := by
  rw [push_eq_drop hC, List.length_append, List.length_drop]
  simp only [List.length_singleton]
  omega

theorem foldl_push_eq_drop {max_size : Nat} (hC : 1 ≤ max_size) :
    ∀ (s q : List QueuedTransaction), q.length ≤ max_size →
      List.foldl (push max_size) q s = (q ++ s).drop ((q ++ s).length - max_size) := by
  intro s
  induction s with
  | nil =>
    intro q hq
    simp only [List.foldl_nil, List.append_nil]
    have : q.length - max_size = 0 := by omega
    rw [this, List.drop_zero]
  | cons t s ih =>
    intro q hq
    rw [List.foldl_cons, ih (push max_size q t) (push_length_le hC q t),
      push_eq_drop hC]
    have hd : q.length + 1 - max_size ≤ q.length := by omega
    rw [List.append_assoc, List.singleton_append,
      ← List.drop_append_of_le_length hd, List.drop_drop]
    congr 1
    simp only [List.length_drop, List.length_append, List.length_cons]
    omega

end TransactionQueue

/-- C1: for every capacity C ≥ 1 and every sequence of more than C
pushes into an initially empty queue, the queue afterwards holds
exactly the C most-recently-pushed transactions in push order; each
push leaves the queue with at most C entries, and each push evicts
exactly the oldest retained entries (a drop from the front). -/
theorem push_bounded_fifo_eviction (C : Nat) (s : List QueuedTransaction)
    (hC : 1 ≤ C) (_hlen : C < s.length) :
    List.foldl (TransactionQueue.push C) [] s = s.drop (s.length - C) ∧
    (∀ q t, (TransactionQueue.push C q t).length ≤ C) ∧
    (∀ q t, TransactionQueue.push C q t =
      q.drop (q.length + 1 - C) ++ [t]) := by
  refine ⟨?main, fun q t => TransactionQueue.push_length_le hC q t,
    fun q t => TransactionQueue.push_eq_drop hC q t⟩
  have h := TransactionQueue.foldl_push_eq_drop hC s [] (by simp)
  simpa using h

/-- Witness for C1 at C = 2 and three pushes. -/
theorem push_bounded_fifo_eviction_witness :
    List.foldl (TransactionQueue.push 2) [] [wtx 0, wtx 1, wtx 2] = [wtx 1, wtx 2] :=
  (push_bounded_fifo_eviction 2 [wtx 0, wtx 1, wtx 2] (by decide) (by decide)).1

/-- C9: the eviction loop of TransactionQueue::push terminates for
every capacity at least 1 (fuel one more than the queue length always
suffices), but with capacity 0 it never terminates: no amount of fuel
makes it finish, since `queue.len() >= 0` stays true while pop_front
on the empty deque removes nothing. -/
theorem push_terminates_iff_capacity_positive (C fuel : Nat)
    (q : List QueuedTransaction) :
    (1 ≤ C → q.length < fuel →
      (TransactionQueue.evictFuel C fuel q).isSome = true) ∧
    TransactionQueue.evictFuel 0 fuel q = none := by
  constructor
  · intro hC hfuel
    rw [TransactionQueue.evictFuel_eq_drop hC fuel q hfuel]
    rfl
  · induction fuel generalizing q with
    | zero => rfl
    | succ fuel ih =>
      rw [TransactionQueue.evictFuel, if_pos (Nat.zero_le _)]
      exact ih q.tail

/-- Witness for C9: capacity 1 terminates on the empty queue, and with
the same fuel capacity 0 does not. -/
theorem push_terminates_iff_capacity_positive_witness :
    (TransactionQueue.evictFuel 1 1 []).isSome = true ∧
    TransactionQueue.evictFuel 0 1 [] = none :=
  ⟨(push_terminates_iff_capacity_positive 1 1 []).1 (by decide) (by decide),
   (push_terminates_iff_capacity_positive 0 1 []).2⟩

namespace TransactionQueue

theorem pop_batch_eq_take_drop :
    ∀ (n : Nat) (q : List QueuedTransaction),
      pop_batch n q = (q.take n, q.drop n) := by
  intro n
  induction n with
  | zero => intro q; rfl
  | succ n ih =>
    intro q
    cases q with
    | nil => rfl
    | cons t rest => simp [pop_batch, ih rest]

theorem pop_batch_iter_eq_take_drop :
    ∀ (k n : Nat) (q : List QueuedTransaction),
      pop_batch_iter k n q = (q.take (k * n), q.drop (k * n)) := by
  intro k
  induction k with
  | zero => intro n q; simp [pop_batch_iter]
  | succ k ih =>
    intro n q
    rw [pop_batch_iter]
    simp only [pop_batch_eq_take_drop, ih]
    have hmul : (k + 1) * n = n + k * n := by ring
    rw [hmul, List.take_add, List.drop_drop]

end TransactionQueue

/-- C4: pop_batch(n) removes and returns exactly the first
min(n, length) items in FIFO order — the returned batch is the n-item
front of the queue and the remainder is the rest — and repeatedly
calling pop_batch (k calls of size n, enough to cover the queue)
drains the queue, returning each item exactly once in push order with
an empty queue left. -/
theorem pop_batch_fifo_drain (n : Nat) (q : List QueuedTransaction) (k : Nat) :
    (TransactionQueue.pop_batch n q).1 = q.take n ∧
    (TransactionQueue.pop_batch n q).2 = q.drop n ∧
    (TransactionQueue.pop_batch n q).1.length ≤ n ∧
    (q.length ≤ k * n →
      (TransactionQueue.pop_batch_iter k n q).1 = q ∧
      (TransactionQueue.pop_batch_iter k n q).2 = []) := by
  refine ⟨?_, ?_, ?_, ?_⟩
  · rw [TransactionQueue.pop_batch_eq_take_drop]
  · rw [TransactionQueue.pop_batch_eq_take_drop]
  · rw [TransactionQueue.pop_batch_eq_take_drop]
    simp only [List.length_take]
    omega
  · intro hcov
    rw [TransactionQueue.pop_batch_iter_eq_take_drop]
    exact ⟨List.take_of_length_le hcov, List.drop_eq_nil_of_le hcov⟩

/-- Witness for C4: two batches of two drain a three-element queue. -/
theorem pop_batch_fifo_drain_witness :
    (TransactionQueue.pop_batch_iter 2 2 [wtx 3, wtx 4, wtx 5]).1 =
      [wtx 3, wtx 4, wtx 5] ∧
    (TransactionQueue.pop_batch_iter 2 2 [wtx 3, wtx 4, wtx 5]).2 = [] :=
  (pop_batch_fifo_drain 2 [wtx 3, wtx 4, wtx 5] 2).2.2.2 (by decide)

/-! ## Pumpfun decoder lemmas -/

namespace PumpfunParser

theorem extract_token_launch_ok (transaction : QueuedTransaction)
    (instruction : TransactionInstruction) :
    ∃ o, extract_token_launch transaction instruction = .ok o := by
  rcases h0 : instruction.accounts[0]? with _ | i
  · exact ⟨none, by simp [extract_token_launch, h0]⟩
  · rcases h1 : transaction.accounts[i]? with _ | a
    · exact ⟨none, by simp [extract_token_launch, h0, h1]⟩
    · simp only [extract_token_launch, h0, h1]
      exact ⟨_, rfl⟩

theorem extract_token_launch_of_lookupFails (transaction : QueuedTransaction)
    (instruction : TransactionInstruction)
    (h : lookupFails transaction instruction) :
    extract_token_launch transaction instruction = .ok none := by
  rcases h with h0 | ⟨i, hi, hti⟩
  · simp [extract_token_launch, h0]
  · simp [extract_token_launch, hi, hti]

theorem parse_go_ok (transaction : QueuedTransaction) :
    ∀ l, ∃ rs, parse_go transaction l = .ok rs := by
  intro l
  induction l with
  | nil => exact ⟨[.notRelevant], rfl⟩
  | cons instr rest ih =>
    rw [parse_go]
    by_cases hc : instr.program_id = program_id ∧ 8 ≤ instr.data.length ∧
        instr.data.take 8 = create_discriminator
    · rw [if_pos hc]
      obtain ⟨o, ho⟩ := extract_token_launch_ok transaction instr
      rw [ho]
      cases o with
      | none => exact ih
      | some launch => exact ⟨_, rfl⟩
    · rw [if_neg hc]
      exact ih

theorem parse_go_skip (transaction : QueuedTransaction) :
    ∀ l, (∀ instr ∈ l, instr.data.length < 8 ∨ lookupFails transaction instr) →
      parse_go transaction l = .ok [.notRelevant] := by
  intro l
  induction l with
  | nil => intro _; rfl
  | cons instr rest ih =>
    intro h
    have hrest := fun i hi => h i (List.mem_cons_of_mem instr hi)
    rw [parse_go]
    by_cases hc : instr.program_id = program_id ∧ 8 ≤ instr.data.length ∧
        instr.data.take 8 = create_discriminator
    · rcases h instr (List.mem_cons_self instr rest) with hshort | hfail
      · omega
      · rw [if_pos hc, extract_token_launch_of_lookupFails transaction instr hfail]
        exact ih hrest
    · rw [if_neg hc]
      exact ih hrest

end PumpfunParser

/-- C2: the Pumpfun decoder never returns an error; and on a
transaction each of whose instructions either has a payload shorter
than 8 bytes or fails one of the two bounds-checked account lookups
(instruction account index 0, or the resolved index into the
transaction account list), it reports no launch: it returns
Ok([NotRelevant]). -/
theorem pumpfun_short_payload_and_bounds_safe (transaction : QueuedTransaction) :
    (∃ rs, PumpfunParser.parse_transaction transaction = .ok rs) ∧
    ((∀ instr ∈ transaction.instructions,
        instr.data.length < 8 ∨ PumpfunParser.lookupFails transaction instr) →
      PumpfunParser.parse_transaction transaction = .ok [.notRelevant]) :=
  ⟨PumpfunParser.parse_go_ok transaction transaction.instructions,
   fun h => PumpfunParser.parse_go_skip transaction transaction.instructions h⟩

/-- Witness for C2: a transaction with a short-payload instruction and
a create instruction with an empty account list decodes to
Ok([NotRelevant]). -/
theorem pumpfun_short_payload_and_bounds_safe_witness :
    PumpfunParser.parse_transaction c2tx = .ok [.notRelevant] :=
  (pumpfun_short_payload_and_bounds_safe c2tx).2 (by decide)

/-- Counterexample to C3: in c3data the name string decodes
successfully to "PUMP" (cursor 16) and the symbol string at cursor 16
is truncated (declared length 10, one byte left), yet the decoder
returns metadata with the name field ABSENT — the successfully decoded
name does not stay present. -/
theorem metadata_name_dropped_on_truncated_symbol_cex :
    PumpfunParser.extract_string_from_data c3data 8 = some ("PUMP", 16) ∧
    PumpfunParser.extract_string_from_data c3data 16 = none ∧
    (PumpfunParser.extract_metadata_from_instruction c3data).name = none := by
  refine ⟨?_, ?_, ?_⟩ <;> decide

/-- C3 as amended: metadata extraction is total (it never fails the
whole decode), but the name and symbol fields are not independent:
whenever the name string decodes successfully and the symbol string is
truncated or invalid, the decoder returns the all-None metadata — the
name field is absent as well. -/
theorem metadata_all_absent_on_truncated_symbol (data : List Nat)
    (name : String) (cursor : Nat)
    (hname : PumpfunParser.extract_string_from_data data 8 = some (name, cursor))
    (hsym : PumpfunParser.extract_string_from_data data cursor = none) :
    PumpfunParser.extract_metadata_from_instruction data =
      PumpfunParser.emptyMetadata := by
  have h12 : ¬ data.length < 8 + 4 := by
    intro h
    rw [PumpfunParser.extract_string_from_data, if_pos h] at hname
    exact Option.noConfusion hname
  have h8 : ¬ data.length < 8 := by omega
  rw [PumpfunParser.extract_metadata_from_instruction, if_neg h8]
  simp only [hname, hsym]

/-- Witness for the amended C3 at the concrete c3data payload. -/
theorem metadata_all_absent_on_truncated_symbol_witness :
    PumpfunParser.extract_metadata_from_instruction c3data =
      PumpfunParser.emptyMetadata :=
  metadata_all_absent_on_truncated_symbol c3data "PUMP" 16 (by decide) (by decide)

/-- C7: on the concrete transaction whose single instruction carries
the Pumpfun program id, the create discriminator, then "PUMP" and
"PMP" as length-prefixed strings, with account index 0 resolving to
the transaction's first account, the decoder returns exactly one
TokenLaunch with name "PUMP" and symbol "PMP". -/
theorem pumpfun_create_decodes_pump_pmp :
    PumpfunParser.parse_transaction c7tx =
      .ok [.tokenLaunch
        { launchpad := .pumpfun
          token_address := "MintAddr"
          creator := some "MintAddr"
          signature := "sig7"
          slot := 42
          timestamp := 7
          metadata := { name := some "PUMP", symbol := some "PMP",
                        uri := none, initial_supply := none,
                        mint_authority := none } }] := by
  rfl

/-! ## Dispatch engine lemmas -/

namespace ParserManager

theorem launchOf_eq_some (r : ParseResult) (x : TokenLaunch) :
    launchOf r = some x ↔ r = .tokenLaunch x := by
  cases r <;> simp [launchOf]

theorem foldl_collect (g : Nat → List TokenLaunch)
    (f : List TokenLaunch → Nat → List TokenLaunch)
    (hf : ∀ pub i, f pub i = pub ++ g i) :
    ∀ (l : List Nat) (acc : List TokenLaunch),
      List.foldl f acc l = acc ++ l.flatMap g := by
  intro l
  induction l with
  | nil => intro acc; simp
  | cons i rest ih =>
    intro acc
    rw [List.foldl_cons, hf, ih (acc ++ g i)]
    simp [List.flatMap_cons]

theorem process_transaction_eq_flatMap (parsers : List ParserModel)
    (transaction : QueuedTransaction) :
    process_transaction parsers transaction =
      (relevantParsers parsers transaction).flatMap (fun parser_index =>
        match parsers[parser_index]? with
        | some parser =>
          match parser.parse transaction with
          | .ok results => results.filterMap launchOf
          | .error _ => []
        | none => []) := by
  rw [process_transaction]
  rw [foldl_collect _ _ ?hf, List.nil_append]
  case hf =>
    intro pub i
    rcases h : parsers[i]? with _ | p
    · simp [h]
    · cases hp : p.parse transaction with
      | ok results => simp [h, hp]
      | error e => simp [h, hp]

end ParserManager

/-- C5: a launch is published to the Messaging Gateway by
process_transaction exactly when it is the payload of a TokenLaunch
result of some relevant decoder's successful parse: every TokenLaunch
result is forwarded, and Trade, Other and NotRelevant results (and
decoder errors) never contribute anything to the gateway. -/
theorem process_transaction_forwards_only_token_launches
    (parsers : List ParserModel) (transaction : QueuedTransaction)
    (x : TokenLaunch) :
    x ∈ ParserManager.process_transaction parsers transaction ↔
      ∃ i ∈ ParserManager.relevantParsers parsers transaction,
        ∃ parser, parsers[i]? = some parser ∧
          ∃ results, parser.parse transaction = .ok results ∧
            ParseResult.tokenLaunch x ∈ results := by
  rw [ParserManager.process_transaction_eq_flatMap, List.mem_flatMap]
  apply exists_congr
  intro i
  apply and_congr_right
  intro _
  rcases h : parsers[i]? with _ | parser
  · simp [h]
  · cases hp : parser.parse transaction with
    | ok results =>
      simp only [h, hp, List.mem_filterMap, ParserManager.launchOf_eq_some,
        Option.some_inj, Except.ok.injEq]
      constructor
      · rintro ⟨r, hr, rfl⟩
        exact ⟨parser, rfl, results, hp, hr⟩
      · rintro ⟨p, rfl, rs, hrs, hmem⟩
        rw [hp] at hrs
        injection hrs with hrs
        subst hrs
        exact ⟨_, hmem, rfl⟩
    | error e =>
      simp [h, hp]

/-! ## Queueing predicate lemmas -/

namespace GeyserClient

theorem should_queue_go_iff (transaction_accounts : List String) :
    ∀ filters : List (String × TransactionFilter),
      should_queue_go transaction_accounts filters = true ↔
        ∃ nf ∈ filters,
          (∃ inc, nf.2.account_include = some inc ∧
            ∃ a ∈ inc, a ∈ transaction_accounts) ∨
          (∃ req, nf.2.account_required = some req ∧
            ∀ a ∈ req, a ∈ transaction_accounts) := by
  intro filters
  induction filters with
  | nil => simp [should_queue_go]
  | cons nf rest ih =>
    obtain ⟨fname, f⟩ := nf
    rcases hinc : f.account_include with _ | inc <;>
      rcases hreq : f.account_required with _ | req <;>
        simp [should_queue_go, hinc, hreq, ih, List.any_eq_true,
          List.all_eq_true, List.contains, List.elem_iff]

theorem should_queue_go_proj (transaction_accounts : List String) :
    ∀ l₁ l₂ : List (String × TransactionFilter),
      l₁.map (fun nf => (nf.2.account_include, nf.2.account_required)) =
        l₂.map (fun nf => (nf.2.account_include, nf.2.account_required)) →
      should_queue_go transaction_accounts l₁ =
        should_queue_go transaction_accounts l₂ := by
  intro l₁
  induction l₁ with
  | nil =>
    intro l₂ h
    cases l₂ with
    | nil => rfl
    | cons nf₂ rest₂ => simp at h
  | cons nf rest ih =>
    intro l₂ h
    cases l₂ with
    | nil => simp at h
    | cons nf₂ rest₂ =>
      obtain ⟨fname, f⟩ := nf
      obtain ⟨fname₂, f₂⟩ := nf₂
      simp only [List.map_cons, List.cons.injEq, Prod.mk.injEq] at h
      obtain ⟨⟨hinc, hreq⟩, htail⟩ := h
      rw [should_queue_go, should_queue_go, hinc, hreq, ih rest₂ htail]

end GeyserClient

/-- C6: the ingestion client queues a transaction exactly when its
account list contains at least one account of some configured filter's
account_include list, or every account of some configured filter's
account_required list; and the decision depends on the configuration
only through those two fields of the transaction filters (any two
configurations with the same include/required projection decide
identically). -/
theorem should_queue_iff_include_or_required (config : Config)
    (transaction_accounts : List String) :
    (GeyserClient.should_queue_transaction config transaction_accounts = true ↔
      ∃ nf ∈ config.transactions,
        (∃ inc, nf.2.account_include = some inc ∧
          ∃ a ∈ inc, a ∈ transaction_accounts) ∨
        (∃ req, nf.2.account_required = some req ∧
          ∀ a ∈ req, a ∈ transaction_accounts)) ∧
    (∀ config₂ : Config,
      GeyserClient.filterProjection config₂ = GeyserClient.filterProjection config →
      GeyserClient.should_queue_transaction config₂ transaction_accounts =
        GeyserClient.should_queue_transaction config transaction_accounts) :=
  ⟨GeyserClient.should_queue_go_iff transaction_accounts config.transactions,
   fun config₂ h =>
     GeyserClient.should_queue_go_proj transaction_accounts
       config₂.transactions config.transactions h⟩

/-- Witness for C6: a transaction holding account "X" is queued under
a filter including "X", and a configuration differing in everything
but the include/required projection decides identically. -/
theorem should_queue_iff_include_or_required_witness :
    GeyserClient.should_queue_transaction wConfigA ["X"] = true ∧
    GeyserClient.should_queue_transaction wConfigB ["X"] =
      GeyserClient.should_queue_transaction wConfigA ["X"] :=
  ⟨(should_queue_iff_include_or_required wConfigA ["X"]).1.mpr
     ⟨("f", wFilterInclude), by decide, Or.inl ⟨["X"], rfl, "X", by decide, by decide⟩⟩,
   (should_queue_iff_include_or_required wConfigA ["X"]).2 wConfigB (by decide)⟩

/-- C10: a configured filter whose account_required list is present
but empty makes the queueing predicate true for every transaction,
whatever its accounts: the all-required check is vacuously satisfied. -/
theorem empty_required_queues_everything (config : Config)
    (transaction_accounts : List String)
    (h : ∃ nf ∈ config.transactions, nf.2.account_required = some []) :
    GeyserClient.should_queue_transaction config transaction_accounts = true := by
  obtain ⟨nf, hmem, hreq⟩ := h
  exact (GeyserClient.should_queue_go_iff transaction_accounts
    config.transactions).mpr ⟨nf, hmem, Or.inr ⟨[], hreq, by simp⟩⟩

/-- Witness for C10: the empty-required filter queues a transaction
with no accounts at all. -/
theorem empty_required_queues_everything_witness :
    GeyserClient.should_queue_transaction wConfigC [] = true :=
  empty_required_queues_everything wConfigC []
    ⟨("f", wFilterEmptyRequired), by decide, rfl⟩

/-! ## JSON round-trip lemmas -/

theorem optStr_roundtrip (o : Option String) :
    optStrFromJson (optStrToJson o) = some o := by
  cases o <;> rfl

theorem optU64_roundtrip (o : Option Nat) :
    optU64FromJson (optU64ToJson o) = some o := by
  cases o with
  | none => rfl
  | some n => simp [optU64ToJson, optU64FromJson]

theorem u64_roundtrip (n : Nat) : u64FromJson (u64ToJson n) = some n := by
  simp [u64ToJson, u64FromJson]

theorem launchpadType_roundtrip (t : LaunchpadType) :
    launchpadTypeFromJson (launchpadTypeToJson t) = some t := by
  cases t <;> rfl

theorem dateTime_roundtrip (t : DateTimeUtc) :
    dateTimeFromJson (dateTimeToJson t) = some t := rfl

theorem launchMetadata_roundtrip (m : LaunchMetadata) :
    launchMetadataFromJson (launchMetadataToJson m) = some m := by
  simp [launchMetadataToJson, launchMetadataFromJson, optStr_roundtrip,
    optU64_roundtrip]

/-- C8: the JSON encoding of TokenLaunch is lossless — decoding the
published encoding of any TokenLaunch, as the consumer does, returns
exactly the original value in all fields. -/
theorem token_launch_json_roundtrip (t : TokenLaunch) :
    tokenLaunchFromJson (tokenLaunchToJson t) = some t := by
  simp [tokenLaunchToJson, tokenLaunchFromJson, launchpadType_roundtrip,
    optStr_roundtrip, u64_roundtrip, dateTime_roundtrip,
    launchMetadata_roundtrip]
